import Mathlib

/-!
Verification development for the hilal-visibility grid pipeline
(`src/utils/moonNow.js` / `calculate.js`, `src/utils/db.js`,
`src/utils/worker.js`, and the antimeridian-safe geometry helper in the
application module).

The astronomical engine (`astronomy-engine`), the DuckDB tabular store and
the H3 grid library are external collaborators; they are modelled as
oracles (structures of abstract functions) or by their documented
interface semantics.  All arithmetic the repository's own code performs is
embedded exactly, over `ℚ` (JS numbers enter only through comparisons and
exact rational arithmetic in the properties below, so `ℚ` is a faithful
carrier).
-/

namespace Hilal

/-- Oracle for the trigonometric primitives of the JS `Math` library, with
the source's degree/radian conversions folded in: `sinDeg x` stands for
`Math.sin(x * Astronomy.DEG2RAD)`, `cosDeg x` for
`Math.cos(x * Astronomy.DEG2RAD)`, and `acosToDeg x` for
`Math.acos(x) * Astronomy.RAD2DEG`. -/
structure Trig where
  sinDeg : ℚ → ℚ
  cosDeg : ℚ → ℚ
  acosToDeg : ℚ → ℚ

/-- Oracle for the results `calculate` obtains from the external
`astronomy-engine` library.  Times are in `ut` days.
`sunEventUt`/`moonEventUt` are the results of the two
`Astronomy.SearchRiseSet(..., direction, time, 1)` calls (`none` models the
`null` "no event in the one-day window" return).  `newMoonPrevUt` and
`newMoonNextUt` are `SearchMoonPhase(0, sunsetSunrise.date, ∓35).date.ut`.
The `...At` fields give the engine-derived quantities at a query time:
`diamDegAt` is `Libration(t).diam_deg`, the altitude/azimuth/ra/dec fields
come from `Equator`+`Horizon`, `elongationAt` is
`Elongation(Moon, t).elongation`, `angleBetweenAt` is
`AngleBetween(sunEquator.vec, moonEquator.vec).angle`, and `arcvTopoAt` is
the topocentric altitude difference computed through the
`GeoVector`/`Rotation_EQJ_EQD`/`Horizon` pipeline of the Yallop branch. -/
structure Ephem where
  sunEventUt : Option ℚ
  moonEventUt : Option ℚ
  newMoonPrevUt : ℚ
  newMoonNextUt : ℚ
  diamDegAt : ℚ → ℚ
  moonAltAt : ℚ → ℚ
  moonAzAt : ℚ → ℚ
  moonRaAt : ℚ → ℚ
  moonDecAt : ℚ → ℚ
  sunAltAt : ℚ → ℚ
  sunAzAt : ℚ → ℚ
  sunRaAt : ℚ → ℚ
  sunDecAt : ℚ → ℚ
  elongationAt : ℚ → ℚ
  angleBetweenAt : ℚ → ℚ
  arcvTopoAt : ℚ → ℚ

/-- The `details` object returned by `calculate`.  The JS function starts
from the empty object `{}` and assigns fields along the way, so every
field is optional; a field that is never assigned on the taken path is
`none` (JS `undefined`). -/
structure Details where
  qcode : Option String := none
  lagTime : Option ℚ := none
  moonsetMoonrise : Option ℚ := none
  sunsetSunrise : Option ℚ := none
  newMoonPrev : Option ℚ := none
  newMoonNext : Option ℚ := none
  moonAgePrev : Option ℚ := none
  moonAgeNext : Option ℚ := none
  bestTime : Option ℚ := none
  sd : Option ℚ := none
  lunarParallax : Option ℚ := none
  arcl : Option ℚ := none
  arcv : Option ℚ := none
  daz : Option ℚ := none
  wTopo : Option ℚ := none
  sdTopo : Option ℚ := none
  value : Option ℚ := none
  moonAzimuth : Option ℚ := none
  moonAltitude : Option ℚ := none
  moonRa : Option ℚ := none
  moonDec : Option ℚ := none
  sunAzimuth : Option ℚ := none
  sunAltitude : Option ℚ := none
  sunRa : Option ℚ := none
  sunDec : Option ℚ := none
  deriving DecidableEq

/-- `lagTime = (moonsetMoonrise.ut - sunsetSunrise.ut) * (evening ? 1 : -1)`
(source line 82). -/
def lagTimeOf (evening : Bool) (sunUt moonUt : ℚ) : ℚ :=
  (moonUt - sunUt) * (if evening then 1 else -1)

/-- Nearest-new-moon selection (source lines 93-95): the previous new moon
if `sunsetSunrise.ut - newMoonPrev.ut <= newMoonNext.ut - sunsetSunrise.ut`,
else the next one. -/
def nearestNewMoon (sunUt prevUt nextUt : ℚ) : ℚ :=
  if sunUt - prevUt ≤ nextUt - sunUt then prevUt else nextUt

/-- `beforeNewMoon = (sunsetSunrise.ut - newMoonNearest.ut) * (evening ? 1 : -1) < 0`
(source line 102). -/
def beforeNewMoonOf (evening : Bool) (sunUt prevUt nextUt : ℚ) : Bool :=
  decide ((sunUt - nearestNewMoon sunUt prevUt nextUt) * (if evening then 1 else -1) < 0)

/-- The three conditional `qcode` assignments of source lines 103-105,
starting from an unassigned (`none`) `qcode`:
`if (lagTime < 0 && beforeNewMoon) details.qcode = "J"`,
then `if (lagTime < 0) details.qcode = "I"`,
then `if (beforeNewMoon) details.qcode = "G"`.
Each plain `if` overwrites the previous assignment, so the last applicable
one wins. -/
def shortCircuitCode (lagNeg beforeNM : Bool) : Option String :=
  let q : Option String := none
  let q := if lagNeg && beforeNM then some ("J") else q
  let q := if lagNeg then some ("I") else q
  let q := if beforeNM then some ("G") else q
  q

/-- Yallop continuous score (source line 146): the cubic-in-`WTopo`
threshold polynomial subtracted from `ARCV`, divided by 10. -/
def yallopValue (ARCV WTopo : ℚ) : ℚ :=
  (ARCV - (11.8371 - 6.3226 * WTopo + 0.7319 * WTopo ^ 2 - 0.1018 * WTopo ^ 3)) / 10

/-- Non-Yallop continuous score (source line 154), not divided by 10. -/
def altValue (ARCV WTopo : ℚ) : ℚ :=
  ARCV - (7.1651 - 6.3226 * WTopo + 0.7319 * WTopo ^ 2 - 0.1018 * WTopo ^ 3)

/-- Yallop bucket ladder (source lines 147-152). -/
def yallopCode (value : ℚ) : String :=
  if value > 0.216 then "A"
  else if value > -0.014 then "B"
  else if value > -0.16 then "C"
  else if value > -0.232 then "D"
  else if value > -0.293 then "E"
  else "F"

/-- Non-Yallop bucket ladder (source lines 155-158). -/
def altCode (value : ℚ) : String :=
  if value ≥ 5.65 then "A"
  else if value ≥ 2.0 then "C"
  else if value ≥ -0.96 then "E"
  else "F"

/-- Shallow embedding of `calculate` (source `calculate.js`, merged file
lines 65-181), with the external engine calls replaced by the `Ephem`
oracle and JS `Math` trigonometry by the `Trig` oracle.  All arithmetic,
the control flow, the field-assignment order and the final unconditional
`details.qcode = result` overwrite (line 161) are reproduced exactly. -/
def calculate (evening yallop : Bool) (e : Ephem) (t : Trig) : Details :=
  match e.sunEventUt, e.moonEventUt with
  | some sunUt, some moonUt =>
    let lagTime := lagTimeOf evening sunUt moonUt
    let bestTime :=
      if lagTime < 0 then sunUt
      else sunUt + (lagTime * 4 / 9) * (if evening then 1 else -1)
    let d : Details := {}
    let d := { d with lagTime := some lagTime, moonsetMoonrise := some moonUt,
                      sunsetSunrise := some sunUt }
    let newMoonPrev := e.newMoonPrevUt
    let newMoonNext := e.newMoonNextUt
    let d := { d with newMoonPrev := some newMoonPrev, newMoonNext := some newMoonNext,
                      moonAgePrev := some (bestTime - newMoonPrev),
                      moonAgeNext := some (bestTime - newMoonNext) }
    let beforeNewMoon := beforeNewMoonOf evening sunUt newMoonPrev newMoonNext
    let d := { d with qcode := shortCircuitCode (decide (lagTime < 0)) beforeNewMoon }
    let SD := e.diamDegAt bestTime * 60 / 2
    let lunarParallax := SD / 0.27245
    let SDTopo := SD * (1 + t.sinDeg (e.moonAltAt bestTime) * t.sinDeg (lunarParallax / 60))
    let ARCL := if yallop then e.elongationAt bestTime else e.angleBetweenAt bestTime
    let DAZ := e.sunAzAt bestTime - e.moonAzAt bestTime
    let ARCV :=
      if yallop then e.arcvTopoAt bestTime
      else
        let COSARCV := t.cosDeg ARCL / t.cosDeg DAZ
        let COSARCV := if COSARCV < -1 then -1 else if COSARCV > 1 then 1 else COSARCV
        t.acosToDeg COSARCV
    let WTopo := SDTopo * (1 - t.cosDeg ARCL)
    let value := if yallop then yallopValue ARCV WTopo else altValue ARCV WTopo
    let result := if yallop then yallopCode value else altCode value
    { d with qcode := some result, bestTime := some bestTime, sd := some SD,
             lunarParallax := some lunarParallax, arcl := some ARCL, arcv := some ARCV,
             daz := some DAZ, wTopo := some WTopo, sdTopo := some SDTopo,
             value := some value,
             moonAzimuth := some (e.moonAzAt bestTime),
             moonAltitude := some (e.moonAltAt bestTime),
             moonRa := some (e.moonRaAt bestTime), moonDec := some (e.moonDecAt bestTime),
             sunAzimuth := some (e.sunAzAt bestTime),
             sunAltitude := some (e.sunAltAt bestTime),
             sunRa := some (e.sunRaAt bestTime), sunDec := some (e.sunDecAt bestTime) }
  | _, _ => { qcode := some ("H") }

/-! ## Result cache (`src/utils/db.js`)

The DuckDB store is an external collaborator.  It is modelled by its
documented interface semantics: a table is a list of rows, a
`PRIMARY KEY (id, date, elevation)` with `INSERT OR IGNORE` skips any row
whose key is already present (rows of one multi-`VALUES` statement are
processed left to right), and a `SELECT ... WHERE id IN (...) AND date =
... AND elevation = ...` returns the matching rows.  Elevation is a
`DOUBLE` column; equality of the stored and queried values is exact value
equality, modelled on `ℚ`. -/

/-- One row of the `results` table created by `initDB`
(columns `id, date, elevation, qcode, color`). -/
structure Row where
  id : String
  date : String
  elevation : ℚ
  qcode : Option String
  color : String
  deriving DecidableEq

/-- One element of the `results` array the worker posts back
(`{ id, qcode, color }`). -/
structure CellResult where
  id : String
  qcode : Option String
  color : String
  deriving DecidableEq

/-- `date.toISOString().split(sep)[0]` for the `T` separator: the calendar
date truncated to the day, taken from the full ISO timestamp string. -/
def isoDay (iso : String) : String :=
  iso.takeWhile (fun c => c ≠ 'T')

/-- Whether the table already holds a row with the given primary key. -/
def hasKey (t : List Row) (id date : String) (elevation : ℚ) : Bool :=
  t.any (fun r => r.id == id && r.date == date && decide (r.elevation = elevation))

/-- `INSERT OR IGNORE` of a single row: a no-op when the primary key is
already present, an append otherwise. -/
def insertOrIgnoreOne (t : List Row) (r : Row) : List Row :=
  if hasKey t r.id r.date r.elevation then t else t ++ [r]

/-- Embedding of `cacheResults(results, date, elevation)` (db.js lines
65-81): truncate the date to the day, return unchanged on an empty batch,
otherwise run one `INSERT OR IGNORE ... VALUES ...` over all rows. -/
def cacheResults (t : List Row) (results : List CellResult) (dateIso : String)
    (elevation : ℚ) : List Row :=
  let dateStr := isoDay dateIso
  if results = [] then t
  else results.foldl (fun acc res =>
    insertOrIgnoreOne acc ⟨res.id, dateStr, elevation, res.qcode, res.color⟩) t

/-- The fixed-size chunking of db.js lines 44-45 (`chunkSize = 500`,
`ids.slice(i, i + chunkSize)`). -/
def chunksOf : List String → List (List String)
  | [] => []
  | l@(_ :: _) => l.take 500 :: chunksOf (l.drop 500)
  termination_by l => l.length
  decreasing_by
    simp only [List.length_drop]
    subst l
    simp only [List.length_cons]
    omega

/-- Embedding of `getCachedResults(ids, date, elevation)` (db.js lines
36-63): per 500-element chunk, `SELECT` the rows whose id is in the chunk
and whose date and elevation equal the query values, map each row to
`{ id, qcode, color }` and concatenate the partial results. -/
def getCachedResults (t : List Row) (ids : List String) (dateIso : String)
    (elevation : ℚ) : List CellResult :=
  let dateStr := isoDay dateIso
  (chunksOf ids).flatMap (fun chunk =>
    (t.filter (fun r =>
        decide (r.id ∈ chunk) && r.date == dateStr && decide (r.elevation = elevation))).map
      (fun r => ⟨r.id, r.qcode, r.color⟩))

/-! ## Worker batch dispatch (`src/utils/worker.js`) -/

/-- One point of the batch posted to the worker
(`{ id: h, lat, lng }` built in `updateH3Grid`). -/
structure Point where
  id : String
  lat : ℚ
  lng : ℚ
  deriving DecidableEq

/-- The worker's local `getCellColor` (worker.js lines 18-30); its
fallthrough returns the transparent colour, and a JS `undefined` qcode
(modelled `none`) compares unequal to every letter. -/
def workerGetCellColor (qcode : Option String) : String :=
  if qcode = some ("A") then "#22c55e"
  else if qcode = some ("B") then "#84cc16"
  else if qcode = some ("C") then "#2dd4bf"
  else if qcode = some ("D") then "#facc15"
  else if qcode = some ("E") then "#fb923c"
  else if qcode = some ("F") then "rgba(0, 0, 0, 0)"
  else if qcode = some ("G") then "#a855f7"
  else if qcode = some ("H") then "#3b82f6"
  else if qcode = some ("I") then "#ef4444"
  else if qcode = some ("J") then "rgba(0, 0, 0, 0)"
  else "rgba(0,0,0,0)"

/-- Embedding of the worker's `self.onmessage` body (worker.js lines
3-16): `points.map(p => { const res = calculate(...); return { id, qcode,
color } })` followed by a single `postMessage`.  The per-point evaluation
is abstracted as `evalCell` (a `calculate` call that may throw, e.g. on
malformed coordinates); a JS exception propagates out of `Array.map`, so
the map is the exception monad's `mapM`: the first failure aborts the
whole handler and nothing is posted. -/
def workerOnMessage (evalCell : Point → Except String Details) :
    List Point → Except String (List CellResult)
  | [] => Except.ok []
  | p :: ps =>
    match evalCell p with
    | Except.error msg => Except.error msg
    | Except.ok res =>
      match workerOnMessage evalCell ps with
      | Except.error msg => Except.error msg
      | Except.ok rest =>
        Except.ok (⟨p.id, res.qcode, workerGetCellColor res.qcode⟩ :: rest)

/-! ## Antimeridian-safe cell geometry (application module,
`getAntimeridianSafeFeature`) -/

/-- GeoJSON geometry as built by `getAntimeridianSafeFeature`: either
`{ type: Polygon, coordinates: [ring] }` or
`{ type: MultiPolygon, coordinates: [[left],[right]] }`.  A ring vertex is
an `(lng, lat)` pair. -/
inductive Geometry where
  | polygon (rings : List (List (ℚ × ℚ)))
  | multiPolygon (polys : List (List (List (ℚ × ℚ))))
  deriving DecidableEq

/-- A GeoJSON feature with its fill colour property. -/
structure Feature where
  color : String
  geometry : Geometry
  deriving DecidableEq

/-- Wrap detection (application module lines 130-134): some pair of
cyclically consecutive boundary longitudes differs by more than 180°. -/
def crossesAntimeridian (lngs : List ℚ) : Bool :=
  (List.range lngs.length).any (fun i =>
    decide (180 < |lngs.getD i 0 - lngs.getD ((i + 1) % lngs.length) 0|))

/-- `coords.push(coords[0])`: close a (nonempty) ring by repeating its
first vertex. -/
def closeRing (coords : List (ℚ × ℚ)) : List (ℚ × ℚ) :=
  match coords with
  | [] => []
  | c :: _ => coords ++ [c]

/-- The "left" copy of a wrapped boundary: negative longitudes shifted by
+360, in `(lng, lat)` order (line 140). -/
def leftCoords (boundary : List (ℚ × ℚ)) : List (ℚ × ℚ) :=
  boundary.map (fun b => (if b.2 < 0 then b.2 + 360 else b.2, b.1))

/-- The "right" copy of a wrapped boundary: positive longitudes shifted by
-360, in `(lng, lat)` order (line 141). -/
def rightCoords (boundary : List (ℚ × ℚ)) : List (ℚ × ℚ) :=
  boundary.map (fun b => (if b.2 > 0 then b.2 - 360 else b.2, b.1))

/-- Embedding of `getAntimeridianSafeFeature` (application module lines
127-144).  The H3 call `h3.cellToBoundary(h3Id)` is the external grid
capability; the function is modelled on its result, the boundary ring of
`(lat, lng)` vertices. -/
def getAntimeridianSafeFeature (boundary : List (ℚ × ℚ)) (color : String) : Feature :=
  let lngs := boundary.map Prod.snd
  if ¬ crossesAntimeridian lngs then
    let coords := boundary.map (fun b => (b.2, b.1))
    ⟨color, Geometry.polygon [closeRing coords]⟩
  else
    ⟨color, Geometry.multiPolygon [[closeRing (leftCoords boundary)],
                                   [closeRing (rightCoords boundary)]]⟩

/-- Largest longitude (first component) of a ring, `0` for the empty
ring. -/
def maxLng : List (ℚ × ℚ) → ℚ
  | [] => 0
  | p :: ps => ps.foldl (fun acc q => max acc q.1) p.1

/-- Smallest longitude of a ring, `0` for the empty ring. -/
def minLng : List (ℚ × ℚ) → ℚ
  | [] => 0
  | p :: ps => ps.foldl (fun acc q => min acc q.1) p.1

/-- The extent of longitude a ring spans. -/
def lngSpan (ring : List (ℚ × ℚ)) : ℚ :=
  maxLng ring - minLng ring

/-! ## Concrete fixtures used by witnesses and counterexamples -/

/-- Degenerate trigonometry oracle: every primitive returns `0`.  Any
fixed choice is legitimate, since the claims under test only concern the
control flow around the oracle values. -/
def trig0 : Trig := ⟨fun _ => 0, fun _ => 0, fun _ => 0⟩

/-- Base ephemeris fixture: sun event at `ut = 0`, moon event at
`ut = -1` (so the moon sets one day before the sun: `lagTime = -1 < 0` for
an evening search), previous new moon 10 days earlier, next new moon one
day later (so the nearest new moon is the next one and the sun event is
before it), and all engine-derived geometric quantities `0`. -/
def ephemBase : Ephem :=
  ⟨some 0, some (-1), -10, 1, fun _ => 0, fun _ => 0, fun _ => 0, fun _ => 0, fun _ => 0,
   fun _ => 0, fun _ => 0, fun _ => 0, fun _ => 0, fun _ => 0, fun _ => 0, fun _ => 0⟩

/-- Variant of `ephemBase` where the nearest new moon is the previous one
(5 days earlier), so `beforeNewMoon` is false while `lagTime < 0` still
holds. -/
def ephemLagOnly : Ephem := { ephemBase with newMoonPrevUt := -5, newMoonNextUt := 25 }

/-- Variant of `ephemBase` with no sun rise/set event found in the
one-day search window. -/
def ephemNoSun : Ephem := { ephemBase with sunEventUt := none }

/-! ## Helper lemmas -/

theorem yallopCode_cases (v : ℚ) :
    yallopCode v = "A" ∨ yallopCode v = "B" ∨ yallopCode v = "C" ∨
    yallopCode v = "D" ∨ yallopCode v = "E" ∨ yallopCode v = "F" := by
  unfold yallopCode
  split_ifs <;> simp

theorem altCode_cases (v : ℚ) :
    altCode v = "A" ∨ altCode v = "C" ∨ altCode v = "E" ∨ altCode v = "F" := by
  unfold altCode
  split_ifs <;> simp

/-- Whatever the mode, the geometric bucket ladders only ever produce a
letter among A-F. -/
theorem geom_code_not_GIJ (y : Bool) (v : ℚ) :
    (if y then yallopCode v else altCode v) ≠ "G" ∧
    (if y then yallopCode v else altCode v) ≠ "I" ∧
    (if y then yallopCode v else altCode v) ≠ "J" := by
  cases y <;> simp only [if_true, if_false, Bool.false_eq_true, Bool.true_eq_false]
  · rcases altCode_cases v with h | h | h | h <;> rw [h] <;>
      exact ⟨by decide, by decide, by decide⟩
  · rcases yallopCode_cases v with h | h | h | h | h | h <;> rw [h] <;>
      exact ⟨by decide, by decide, by decide⟩

/-- When both rise/set searches succeed, the `qcode` of the returned
details is the geometric bucket of the returned `value`: the final
assignment `details.qcode = result` (source line 161) is unconditional. -/
theorem calculate_qcode_eq_value_bucket (e : Ephem) (t : Trig) (evening yallop : Bool)
    (s m : ℚ) :
    (calculate evening yallop { e with sunEventUt := some s, moonEventUt := some m } t).qcode
      = ((calculate evening yallop
            { e with sunEventUt := some s, moonEventUt := some m } t).value).map
          (fun w => if yallop then yallopCode w else altCode w) := by
  cases yallop <;> rfl

/-! ## C6: no rise/set event gives code H, returned normally -/

/-- C6: for every input where either the Sun or the Moon rise/set search
finds no event within the one-day window, `calculate` classifies the
result as code H and returns it normally (the embedded function is total:
no exceptional exit exists on this path). -/
theorem calculate_no_event_code_H (e : Ephem) (t : Trig) (evening yallop : Bool)
    (h : e.sunEventUt = none ∨ e.moonEventUt = none) :
    (calculate evening yallop e t).qcode = some ("H") := by
  unfold calculate
  rcases h with h | h
  · rw [h]
  · rw [h]
    cases hs : e.sunEventUt <;> rfl

/-- C6 witness: an ephemeris with no sun event yields code H. -/
theorem calculate_no_event_code_H_witness :
    (ephemNoSun.sunEventUt = none ∨ ephemNoSun.moonEventUt = none) ∧
    (calculate true true ephemNoSun trig0).qcode = some ("H") :=
  ⟨Or.inl rfl, calculate_no_event_code_H ephemNoSun trig0 true true (Or.inl rfl)⟩

/-! ## C10: the H result carries no diagnostic fields -/

/-- C10: when either rise/set search finds no event, the result contains
only the qualitative code H; every diagnostic field (lagTime,
sunsetSunrise, moonsetMoonrise, bestTime, arcl, arcv, daz, wTopo, the
altitudes, value, and the rest) is absent (`none`, i.e. JS
`undefined`). -/
theorem calculate_no_event_only_qcode (e : Ephem) (t : Trig) (evening yallop : Bool)
    (h : e.sunEventUt = none ∨ e.moonEventUt = none) :
    calculate evening yallop e t = ({ qcode := some ("H") } : Details) ∧
    (calculate evening yallop e t).lagTime = none ∧
    (calculate evening yallop e t).sunsetSunrise = none ∧
    (calculate evening yallop e t).moonsetMoonrise = none ∧
    (calculate evening yallop e t).bestTime = none ∧
    (calculate evening yallop e t).arcl = none ∧
    (calculate evening yallop e t).arcv = none ∧
    (calculate evening yallop e t).daz = none ∧
    (calculate evening yallop e t).wTopo = none ∧
    (calculate evening yallop e t).moonAltitude = none ∧
    (calculate evening yallop e t).sunAltitude = none ∧
    (calculate evening yallop e t).value = none := by
  have heq : calculate evening yallop e t = ({ qcode := some ("H") } : Details) := by
    unfold calculate
    rcases h with h | h
    · rw [h]
    · rw [h]
      cases hs : e.sunEventUt <;> rfl
  rw [heq]
  exact ⟨rfl, rfl, rfl, rfl, rfl, rfl, rfl, rfl, rfl, rfl, rfl, rfl⟩

/-- C10 witness: the no-sun-event fixture returns the bare H record. -/
theorem calculate_no_event_only_qcode_witness :
    calculate false false ephemNoSun trig0 = ({ qcode := some ("H") } : Details) :=
  (calculate_no_event_only_qcode ephemNoSun trig0 false false (Or.inl rfl)).1

/-! ## C1 / C2: the G/I/J short-circuit codes versus the geometric letter -/

/-- C1 (amended): whenever both rise/set events are found the final
qualitative code is always the geometric letter bucketed from `value` —
the unconditional `details.qcode = result` after the geometric step
overwrites the G/I/J assignments, so the final code is never G, I or J;
and among the transient assignments of lines 103-105 the LAST applicable
one wins, so there G beats I beats J (the reverse of the claimed
precedence). -/
theorem calculate_final_code_is_geometric (e : Ephem) (t : Trig) (evening yallop : Bool)
    (s m : ℚ) :
    (calculate evening yallop { e with sunEventUt := some s, moonEventUt := some m } t).qcode
      = ((calculate evening yallop
            { e with sunEventUt := some s, moonEventUt := some m } t).value).map
          (fun w => if yallop then yallopCode w else altCode w)
  ∧ (calculate evening yallop { e with sunEventUt := some s, moonEventUt := some m } t).qcode
      ≠ some ("G")
  ∧ (calculate evening yallop { e with sunEventUt := some s, moonEventUt := some m } t).qcode
      ≠ some ("I")
  ∧ (calculate evening yallop { e with sunEventUt := some s, moonEventUt := some m } t).qcode
      ≠ some ("J")
  ∧ shortCircuitCode true true = some ("G")
  ∧ shortCircuitCode true false = some ("I")
  ∧ shortCircuitCode false true = some ("G")
  ∧ shortCircuitCode false false = none := by
  have hq := calculate_qcode_eq_value_bucket e t evening yallop s m
  refine ⟨hq, ?_, ?_, ?_, rfl, rfl, rfl, rfl⟩ <;> rw [hq] <;>
    cases hv : (calculate evening yallop
        { e with sunEventUt := some s, moonEventUt := some m } t).value <;>
    simp only [Option.map_none', Option.map_some', ne_eq, Option.some.injEq,
      reduceCtorEq, not_false_eq_true]
  · exact (geom_code_not_GIJ yallop _).1
  · exact (geom_code_not_GIJ yallop _).2.1
  · exact (geom_code_not_GIJ yallop _).2.2

/-- C1 counterexample: with the sun event at `ut = 0`, the moon event at
`ut = -1` (so `lagTime = -1 < 0`, a short-circuit condition) and the
nearest new moon in the past (`beforeNewMoon` false), the claim requires
final code I; the code returns the geometric letter F. -/
theorem calculate_short_circuit_overwritten_cex :
    (calculate true true ephemLagOnly trig0).lagTime = some (-1)
  ∧ ((-1 : ℚ) < 0)
  ∧ beforeNewMoonOf true 0 ephemLagOnly.newMoonPrevUt ephemLagOnly.newMoonNextUt = false
  ∧ (calculate true true ephemLagOnly trig0).qcode = some ("F")
  ∧ (some ("F") : Option String) ≠ some ("I")
  ∧ (some ("F") : Option String) ≠ some ("J")
  ∧ (some ("F") : Option String) ≠ some ("G") := by
  refine ⟨?_, by norm_num, ?_, ?_, by decide, by decide, by decide⟩ <;>
    norm_num [calculate, ephemLagOnly, ephemBase, trig0, lagTimeOf, nearestNewMoon,
      beforeNewMoonOf, shortCircuitCode, yallopValue, yallopCode, altValue, altCode]

/-- C2 (amended): when `lagTime < 0` and the observation is before the
nearest new moon simultaneously, the transient short-circuit code is G
(the last of the three assignments to fire), not J, and the returned
qualitative code is the geometric letter, never J. -/
theorem calculate_both_conditions_final_not_J (e : Ephem) (t : Trig)
    (evening yallop : Bool) (s m : ℚ)
    (h1 : lagTimeOf evening s m < 0)
    (h2 : beforeNewMoonOf evening s e.newMoonPrevUt e.newMoonNextUt = true) :
    shortCircuitCode (decide (lagTimeOf evening s m < 0))
        (beforeNewMoonOf evening s e.newMoonPrevUt e.newMoonNextUt) = some ("G")
  ∧ (calculate evening yallop { e with sunEventUt := some s, moonEventUt := some m } t).qcode
      ≠ some ("J")
  ∧ (calculate evening yallop { e with sunEventUt := some s, moonEventUt := some m } t).qcode
      = ((calculate evening yallop
            { e with sunEventUt := some s, moonEventUt := some m } t).value).map
          (fun w => if yallop then yallopCode w else altCode w) := by
  have hq := calculate_qcode_eq_value_bucket e t evening yallop s m
  refine ⟨?_, ?_, hq⟩
  · rw [decide_eq_true h1, h2]
    rfl
  · rw [hq]
    cases hv : (calculate evening yallop
        { e with sunEventUt := some s, moonEventUt := some m } t).value <;>
      simp only [Option.map_none', Option.map_some', ne_eq, Option.some.injEq,
        reduceCtorEq, not_false_eq_true]
    exact (geom_code_not_GIJ yallop _).2.2

/-- C2 witness: the base fixture has `lagTime = -1 < 0` and the sun event
before the nearest new moon, discharging both hypotheses. -/
theorem calculate_both_conditions_final_not_J_witness :
    shortCircuitCode (decide (lagTimeOf true 0 (-1) < 0))
        (beforeNewMoonOf true 0 ephemBase.newMoonPrevUt ephemBase.newMoonNextUt) = some ("G")
  ∧ (calculate true true { ephemBase with sunEventUt := some 0, moonEventUt := some (-1) }
        trig0).qcode ≠ some ("J")
  ∧ (calculate true true { ephemBase with sunEventUt := some 0, moonEventUt := some (-1) }
        trig0).qcode
      = ((calculate true true { ephemBase with sunEventUt := some 0, moonEventUt := some (-1) }
            trig0).value).map (fun w => if true then yallopCode w else altCode w) :=
  calculate_both_conditions_final_not_J ephemBase trig0 true true 0 (-1)
    (by norm_num [lagTimeOf]) (by norm_num [beforeNewMoonOf, nearestNewMoon, ephemBase])

/-- C2 counterexample: on the base fixture both short-circuit conditions
hold, yet the returned code is F, not J (and not I or G either). -/
theorem calculate_both_conditions_cex :
    (calculate true true ephemBase trig0).lagTime = some (-1)
  ∧ ((-1 : ℚ) < 0)
  ∧ beforeNewMoonOf true 0 ephemBase.newMoonPrevUt ephemBase.newMoonNextUt = true
  ∧ (calculate true true ephemBase trig0).qcode = some ("F")
  ∧ (some ("F") : Option String) ≠ some ("J") := by
  refine ⟨?_, by norm_num, ?_, ?_, by decide⟩ <;>
    norm_num [calculate, ephemBase, trig0, lagTimeOf, nearestNewMoon,
      beforeNewMoonOf, shortCircuitCode, yallopValue, yallopCode, altValue, altCode]

/-! ## C3: the geometric bucket ladders -/

theorem yallopCode_A_iff (v : ℚ) : yallopCode v = "A" ↔ 0.216 < v := by
  unfold yallopCode
  split_ifs with h1 h2 h3 h4 h5
  · exact iff_of_true rfl h1
  · exact iff_of_false (by decide) h1
  · exact iff_of_false (by decide) h1
  · exact iff_of_false (by decide) h1
  · exact iff_of_false (by decide) h1
  · exact iff_of_false (by decide) h1

theorem yallopCode_B_iff (v : ℚ) : yallopCode v = "B" ↔ -0.014 < v ∧ v ≤ 0.216 := by
  unfold yallopCode
  split_ifs with h1 h2 h3 h4 h5
  · exact iff_of_false (by decide) (fun hc => absurd h1 (not_lt.mpr hc.2))
  · exact iff_of_true rfl ⟨h2, le_of_not_lt h1⟩
  · exact iff_of_false (by decide) (fun hc => h2 hc.1)
  · exact iff_of_false (by decide) (fun hc => h2 hc.1)
  · exact iff_of_false (by decide) (fun hc => h2 hc.1)
  · exact iff_of_false (by decide) (fun hc => h2 hc.1)

theorem yallopCode_C_iff (v : ℚ) : yallopCode v = "C" ↔ -0.16 < v ∧ v ≤ -0.014 := by
  unfold yallopCode
  split_ifs with h1 h2 h3 h4 h5
  · exact iff_of_false (by decide)
      (fun hc => absurd h1 (not_lt.mpr (hc.2.trans (by norm_num))))
  · exact iff_of_false (by decide) (fun hc => absurd h2 (not_lt.mpr hc.2))
  · exact iff_of_true rfl ⟨h3, le_of_not_lt h2⟩
  · exact iff_of_false (by decide) (fun hc => h3 hc.1)
  · exact iff_of_false (by decide) (fun hc => h3 hc.1)
  · exact iff_of_false (by decide) (fun hc => h3 hc.1)

theorem yallopCode_D_iff (v : ℚ) : yallopCode v = "D" ↔ -0.232 < v ∧ v ≤ -0.16 := by
  unfold yallopCode
  split_ifs with h1 h2 h3 h4 h5
  · exact iff_of_false (by decide)
      (fun hc => absurd h1 (not_lt.mpr (hc.2.trans (by norm_num))))
  · exact iff_of_false (by decide)
      (fun hc => absurd h2 (not_lt.mpr (hc.2.trans (by norm_num))))
  · exact iff_of_false (by decide) (fun hc => absurd h3 (not_lt.mpr hc.2))
  · exact iff_of_true rfl ⟨h4, le_of_not_lt h3⟩
  · exact iff_of_false (by decide) (fun hc => h4 hc.1)
  · exact iff_of_false (by decide) (fun hc => h4 hc.1)

theorem yallopCode_E_iff (v : ℚ) : yallopCode v = "E" ↔ -0.293 < v ∧ v ≤ -0.232 := by
  unfold yallopCode
  split_ifs with h1 h2 h3 h4 h5
  · exact iff_of_false (by decide)
      (fun hc => absurd h1 (not_lt.mpr (hc.2.trans (by norm_num))))
  · exact iff_of_false (by decide)
      (fun hc => absurd h2 (not_lt.mpr (hc.2.trans (by norm_num))))
  · exact iff_of_false (by decide)
      (fun hc => absurd h3 (not_lt.mpr (hc.2.trans (by norm_num))))
  · exact iff_of_false (by decide) (fun hc => absurd h4 (not_lt.mpr hc.2))
  · exact iff_of_true rfl ⟨h5, le_of_not_lt h4⟩
  · exact iff_of_false (by decide) (fun hc => h5 hc.1)

theorem yallopCode_F_iff (v : ℚ) : yallopCode v = "F" ↔ v ≤ -0.293 := by
  unfold yallopCode
  split_ifs with h1 h2 h3 h4 h5
  · exact iff_of_false (by decide)
      (fun hc => absurd h1 (not_lt.mpr (hc.trans (by norm_num))))
  · exact iff_of_false (by decide)
      (fun hc => absurd h2 (not_lt.mpr (hc.trans (by norm_num))))
  · exact iff_of_false (by decide)
      (fun hc => absurd h3 (not_lt.mpr (hc.trans (by norm_num))))
  · exact iff_of_false (by decide)
      (fun hc => absurd h4 (not_lt.mpr (hc.trans (by norm_num))))
  · exact iff_of_false (by decide) (fun hc => absurd h5 (not_lt.mpr hc))
  · exact iff_of_true rfl (le_of_not_lt h5)

theorem altCode_A_iff (v : ℚ) : altCode v = "A" ↔ 5.65 ≤ v := by
  unfold altCode
  split_ifs with h1 h2 h3
  · exact iff_of_true rfl h1
  · exact iff_of_false (by decide) h1
  · exact iff_of_false (by decide) h1
  · exact iff_of_false (by decide) h1

theorem altCode_C_iff (v : ℚ) : altCode v = "C" ↔ 2.0 ≤ v ∧ v < 5.65 := by
  unfold altCode
  split_ifs with h1 h2 h3
  · exact iff_of_false (by decide) (fun hc => absurd h1 (not_le.mpr hc.2))
  · exact iff_of_true rfl ⟨h2, not_le.mp h1⟩
  · exact iff_of_false (by decide) (fun hc => h2 hc.1)
  · exact iff_of_false (by decide) (fun hc => h2 hc.1)

theorem altCode_E_iff (v : ℚ) : altCode v = "E" ↔ -0.96 ≤ v ∧ v < 2.0 := by
  unfold altCode
  split_ifs with h1 h2 h3
  · exact iff_of_false (by decide)
      (fun hc => absurd h1 (not_le.mpr (hc.2.trans_le (by norm_num))))
  · exact iff_of_false (by decide) (fun hc => absurd h2 (not_le.mpr hc.2))
  · exact iff_of_true rfl ⟨h3, not_le.mp h2⟩
  · exact iff_of_false (by decide) (fun hc => h3 hc.1)

theorem altCode_F_iff (v : ℚ) : altCode v = "F" ↔ v < -0.96 := by
  unfold altCode
  split_ifs with h1 h2 h3
  · exact iff_of_false (by decide)
      (fun hc => absurd h1 (not_le.mpr (hc.trans_le (by norm_num))))
  · exact iff_of_false (by decide)
      (fun hc => absurd h2 (not_le.mpr (hc.trans_le (by norm_num))))
  · exact iff_of_false (by decide) (fun hc => absurd h3 (not_le.mpr hc))
  · exact iff_of_true rfl (not_le.mp h3)

/-- C3: the letter produced from the continuous value follows exactly the
specified ladders.  When both events are found, `calculate` buckets its
`value` field into `qcode` (Yallop ladder when `yallop`, alternate ladder
otherwise); the Yallop ladder cuts exactly at 0.216 / -0.014 / -0.16 /
-0.232 / -0.293 (strict `>`), the alternate ladder at 5.65 / 2.0 / -0.96
(`≥`), and the alternate ladder never produces B or D. -/
theorem visibility_code_ladders (e : Ephem) (t : Trig) (evening yallop : Bool)
    (s m : ℚ) (v : ℚ) :
    (calculate evening yallop { e with sunEventUt := some s, moonEventUt := some m } t).qcode
      = ((calculate evening yallop
            { e with sunEventUt := some s, moonEventUt := some m } t).value).map
          (fun w => if yallop then yallopCode w else altCode w)
  ∧ (yallopCode v = "A" ↔ 0.216 < v)
  ∧ (yallopCode v = "B" ↔ -0.014 < v ∧ v ≤ 0.216)
  ∧ (yallopCode v = "C" ↔ -0.16 < v ∧ v ≤ -0.014)
  ∧ (yallopCode v = "D" ↔ -0.232 < v ∧ v ≤ -0.16)
  ∧ (yallopCode v = "E" ↔ -0.293 < v ∧ v ≤ -0.232)
  ∧ (yallopCode v = "F" ↔ v ≤ -0.293)
  ∧ (altCode v = "A" ↔ 5.65 ≤ v)
  ∧ (altCode v = "C" ↔ 2.0 ≤ v ∧ v < 5.65)
  ∧ (altCode v = "E" ↔ -0.96 ≤ v ∧ v < 2.0)
  ∧ (altCode v = "F" ↔ v < -0.96)
  ∧ altCode v ≠ "B"
  ∧ altCode v ≠ "D" :=
  ⟨calculate_qcode_eq_value_bucket e t evening yallop s m,
   yallopCode_A_iff v, yallopCode_B_iff v, yallopCode_C_iff v, yallopCode_D_iff v,
   yallopCode_E_iff v, yallopCode_F_iff v,
   altCode_A_iff v, altCode_C_iff v, altCode_E_iff v, altCode_F_iff v,
   by rcases altCode_cases v with h | h | h | h <;> rw [h] <;> decide,
   by rcases altCode_cases v with h | h | h | h <;> rw [h] <;> decide⟩

/-! ## C4 / C5 / C7: cache lemmas -/

theorem chunksOf_nil : chunksOf ([] : List String) = [] := by
  rw [chunksOf]

theorem chunksOf_flatten (l : List String) : (chunksOf l).flatten = l := by
  have key : ∀ n (l : List String), l.length ≤ n → (chunksOf l).flatten = l := by
    intro n
    induction n with
    | zero =>
      intro l hl
      have h0 : l = [] := List.length_eq_zero.mp (Nat.le_zero.mp hl)
      subst h0
      rw [chunksOf_nil]
      rfl
    | succ n ih =>
      intro l hl
      match l with
      | [] =>
        rw [chunksOf_nil]
        rfl
      | x :: xs =>
        rw [chunksOf, List.flatten_cons,
          ih ((x :: xs).drop 500)
            (by simp only [List.length_drop, List.length_cons] at hl ⊢; omega)]
        exact List.take_append_drop 500 (x :: xs)
  exact key l.length l le_rfl

theorem mem_chunksOf {x : String} {l : List String} :
    (∃ c ∈ chunksOf l, x ∈ c) ↔ x ∈ l := by
  conv_rhs => rw [← chunksOf_flatten l]
  exact List.mem_flatten.symm

theorem chunksOf_singleton (x : String) : chunksOf [x] = [[x]] := by
  rw [chunksOf, List.take_of_length_le (by norm_num), List.drop_eq_nil_of_le (by norm_num),
    chunksOf_nil]

/-- The key-absence test unfolded: no row of the table matches all three
key components. -/
theorem hasKey_eq_false_iff (t : List Row) (id d : String) (e : ℚ) :
    hasKey t id d e = false ↔
      ∀ r ∈ t, r.id = id → r.date = d → r.elevation ≠ e := by
  simp [hasKey, List.any_eq_false]

/-- A lookup of one id against a one-row table hits exactly when all three
key components match. -/
theorem getCachedResults_single (row : Row) (id dateIso : String) (e : ℚ) :
    getCachedResults [row] [id] dateIso e =
      if row.id = id ∧ row.date = isoDay dateIso ∧ row.elevation = e
      then [⟨row.id, row.qcode, row.color⟩] else [] := by
  unfold getCachedResults
  rw [chunksOf_singleton]
  by_cases h : row.id = id ∧ row.date = isoDay dateIso ∧ row.elevation = e
  · rw [if_pos h]
    simp [List.filter_cons, h.1, h.2.1, h.2.2]
  · rw [if_neg h]
    simp only [List.flatMap_cons, List.flatMap_nil, List.append_nil, List.filter_cons,
      List.filter_nil, List.mem_singleton, Bool.and_eq_true, decide_eq_true_eq, beq_iff_eq]
    rw [if_neg (fun hc => h ⟨hc.1.1, hc.1.2, hc.2⟩)]
    rfl

/-- Inserting one result into a table whose key space does not yet hold it
appends exactly one row. -/
theorem cacheResults_single_absent (t : List Row) (a : CellResult) (dateIso : String)
    (e : ℚ) (habs : hasKey t a.id (isoDay dateIso) e = false) :
    cacheResults t [a] dateIso e = t ++ [⟨a.id, isoDay dateIso, e, a.qcode, a.color⟩] := by
  simp only [cacheResults, List.foldl_cons, List.foldl_nil, insertOrIgnoreOne,
    reduceCtorEq, if_false, habs]

/-- C4: cache insert is idempotent with first-writer-wins semantics:
inserting a result `a`, then a (possibly different) result `b` for the
same `(cellId, date, elevation)` key, leaves the table exactly as after
the first insert — the second insert is a no-op, never an overwrite — and
a lookup of the key returns the payload of `a`, never that of `b`. -/
theorem cache_insert_first_writer_wins (t : List Row) (a b : CellResult)
    (dateIso : String) (e : ℚ)
    (hid : b.id = a.id)
    (habs : hasKey t a.id (isoDay dateIso) e = false) :
    cacheResults (cacheResults t [a] dateIso e) [b] dateIso e
      = cacheResults t [a] dateIso e
  ∧ getCachedResults (cacheResults (cacheResults t [a] dateIso e) [b] dateIso e)
      [a.id] dateIso e = [⟨a.id, a.qcode, a.color⟩] := by
  have h1 := cacheResults_single_absent t a dateIso e habs
  have hkey : hasKey (t ++ [(⟨a.id, isoDay dateIso, e, a.qcode, a.color⟩ : Row)])
      a.id (isoDay dateIso) e = true := by
    simp [hasKey, List.any_append]
  have h2 : cacheResults (cacheResults t [a] dateIso e) [b] dateIso e
      = cacheResults t [a] dateIso e := by
    rw [h1]
    simp only [cacheResults, List.foldl_cons, List.foldl_nil, insertOrIgnoreOne,
      reduceCtorEq, if_false]
    rw [hid, hkey]
    simp
  refine ⟨h2, ?_⟩
  rw [h2, h1]
  unfold getCachedResults
  rw [chunksOf_singleton]
  simp only [List.flatMap_cons, List.flatMap_nil, List.append_nil, List.filter_append]
  have hft : t.filter (fun r =>
      decide (r.id ∈ [a.id]) && (r.date == isoDay dateIso) && decide (r.elevation = e))
        = [] := by
    rw [List.filter_eq_nil_iff]
    intro r hr
    simp only [List.mem_singleton, Bool.and_eq_true, decide_eq_true_eq, beq_iff_eq, not_and]
    rintro ⟨hid2, hdate⟩
    exact (hasKey_eq_false_iff t a.id (isoDay dateIso) e).mp habs r hr hid2 hdate
  rw [hft]
  simp [List.filter_cons]

/-- C5: cache lookup is sound.  A result is returned by `getCachedResults`
exactly when the table holds a row with one of the requested ids and the
identical day-truncated date and elevation, and the result is that row's
payload; a key never inserted is simply absent.  This holds across the
500-element chunking of the id set. -/
theorem cache_lookup_sound (t : List Row) (ids : List String) (dateIso : String)
    (e : ℚ) (r : CellResult) :
    r ∈ getCachedResults t ids dateIso e ↔
      ∃ row ∈ t, row.id ∈ ids ∧ row.date = isoDay dateIso ∧ row.elevation = e ∧
        r = ⟨row.id, row.qcode, row.color⟩ := by
  unfold getCachedResults
  simp only [List.mem_flatMap, List.mem_map, List.mem_filter, Bool.and_eq_true,
    beq_iff_eq, decide_eq_true_eq]
  constructor
  · rintro ⟨c, hc, row, ⟨⟨hrow, ⟨⟨hcm, hdate⟩, helev⟩⟩, rfl⟩⟩
    exact ⟨row, hrow, mem_chunksOf.mp ⟨c, hc, hcm⟩, hdate, helev, rfl⟩
  · rintro ⟨row, hrow, hid, hdate, helev, rfl⟩
    obtain ⟨c, hc, hcm⟩ := mem_chunksOf.mpr hid
    exact ⟨c, hc, row, ⟨⟨hrow, ⟨⟨hcm, hdate⟩, helev⟩⟩, rfl⟩⟩

/-- C7 (amended): the cache key stores the elevation exactly as given (a
double-precision value; no integer rounding is applied anywhere between
the caller and the `elevation DOUBLE` key column), so an insert and a
lookup address the same cache entry exactly when their elevations are
equal; two distinct elevations — even closer than a meter apart — address
distinct entries. -/
theorem cache_key_elevation_exact (a : CellResult) (dateIso : String) (e1 e2 : ℚ)
    (hne : e1 ≠ e2) :
    getCachedResults (cacheResults [] [a] dateIso e1) [a.id] dateIso e2 = []
  ∧ getCachedResults (cacheResults [] [a] dateIso e1) [a.id] dateIso e1
      = [⟨a.id, a.qcode, a.color⟩] := by
  have h0 : cacheResults [] [a] dateIso e1
      = [⟨a.id, isoDay dateIso, e1, a.qcode, a.color⟩] :=
    cacheResults_single_absent [] a dateIso e1 rfl
  rw [h0]
  constructor
  · rw [getCachedResults_single]
    rw [if_neg]
    rintro ⟨-, -, h3⟩
    exact hne h3
  · rw [getCachedResults_single]
    rw [if_pos ⟨rfl, rfl, rfl⟩]

end Hilal

namespace Hilal

/-! ## C8: a single failing cell aborts the whole worker batch -/

/-- Whether an exception-carrying computation completed normally. -/
def exceptIsOk {α : Type} : Except String α → Bool
  | Except.ok _ => true
  | Except.error _ => false

/-- If the evaluation of any point of the batch fails, the whole handler
fails: no result list is posted, not even for the healthy cells. -/
theorem worker_fail_aborts (f : Point → Except String Details) (p : Point)
    (hfail : exceptIsOk (f p) = false) :
    ∀ points : List Point, p ∈ points →
      exceptIsOk (workerOnMessage f points) = false := by
  intro points
  induction points with
  | nil => intro hp; cases hp
  | cons q qs ih =>
    intro hp
    rcases List.mem_cons.mp hp with hpq | hmem
    · subst hpq
      rcases hfq : f p with msg | r
      · simp [workerOnMessage, hfq, exceptIsOk]
      · rw [hfq] at hfail
        simp [exceptIsOk] at hfail
    · rcases hfq : f q with msg | r
      · simp [workerOnMessage, hfq, exceptIsOk]
      · have hqs := ih hmem
        rcases hws : workerOnMessage f qs with msg | rest
        · simp [workerOnMessage, hfq, hws, exceptIsOk]
        · rw [hws] at hqs
          simp [exceptIsOk] at hqs

/-- When every point evaluates successfully the handler posts exactly one
result per point. -/
theorem worker_all_ok (g : Point → Except String Details) (points : List Point) :
    (∀ q ∈ points, exceptIsOk (g q) = true) →
      ∃ rs, workerOnMessage g points = Except.ok rs ∧ rs.length = points.length := by
  induction points with
  | nil => exact fun _ => ⟨[], rfl, rfl⟩
  | cons q qs ih =>
    intro hg
    rcases hgq : g q with msg | r
    · have := hg q (List.mem_cons_self q qs)
      rw [hgq] at this
      simp [exceptIsOk] at this
    · obtain ⟨rs, hrs, hlen⟩ := ih (fun x hx => hg x (List.mem_cons_of_mem q hx))
      refine ⟨⟨q.id, r.qcode, workerGetCellColor r.qcode⟩ :: rs, ?_, ?_⟩
      · simp [workerOnMessage, hgq, hrs]
      · simp [hlen]

/-- C8 (amended): the worker has no per-cell error handling: a failure of
one individual cell's evaluation aborts the whole batch — the handler
produces no results at all, not even for the healthy cells — while a batch
whose cells all evaluate successfully produces exactly one result per
point. -/
theorem worker_single_failure_aborts (f : Point → Except String Details)
    (points : List Point) (p : Point)
    (hp : p ∈ points) (hfail : exceptIsOk (f p) = false) :
    exceptIsOk (workerOnMessage f points) = false
  ∧ ∀ g : Point → Except String Details,
      (∀ q ∈ points, exceptIsOk (g q) = true) →
      ∃ rs, workerOnMessage g points = Except.ok rs ∧ rs.length = points.length :=
  ⟨worker_fail_aborts f p hfail points hp, fun g hg => worker_all_ok g points hg⟩

/-- A healthy point at the origin. -/
def pGood : Point := ⟨"cell-good", 0, 0⟩

/-- A malformed point: latitude 1000 is outside the valid range and makes
the engine-backed `calculate` call throw. -/
def pBad : Point := ⟨"cell-bad", 1000, 0⟩

/-- The details a successful evaluation returns in the fixture. -/
def okDetails : Details := { qcode := some ("A") }

/-- Fixture evaluator: throws on an out-of-range latitude, succeeds
otherwise (the behaviour of `calculate` through the engine's input
validation). -/
def evalStub : Point → Except String Details := fun p =>
  if p.lat < -90 ∨ 90 < p.lat then Except.error ("Invalid latitude") else Except.ok okDetails

/-- C8 witness: in the two-point batch with one malformed point, the
hypotheses hold and the batch aborts. -/
theorem worker_single_failure_aborts_witness :
    exceptIsOk (workerOnMessage evalStub [pGood, pBad]) = false
  ∧ ∀ g : Point → Except String Details,
      (∀ q ∈ [pGood, pBad], exceptIsOk (g q) = true) →
      ∃ rs, workerOnMessage g [pGood, pBad] = Except.ok rs ∧
        rs.length = ([pGood, pBad] : List Point).length :=
  worker_single_failure_aborts evalStub [pGood, pBad] pBad
    (by simp) rfl

/-- C8 counterexample: the healthy cell evaluates fine, yet because the
other cell of the batch throws, the handler returns the exception and no
result at all is produced — contradicting the claim that the remaining
cells' results are still produced. -/
theorem worker_failure_cex :
    exceptIsOk (evalStub pGood) = true
  ∧ evalStub pBad = Except.error ("Invalid latitude")
  ∧ workerOnMessage evalStub [pGood, pBad] = Except.error ("Invalid latitude") :=
  ⟨rfl, rfl, rfl⟩

end Hilal

namespace Hilal

/-! ## C9: antimeridian-safe polygon construction -/

theorem foldl_max_le : ∀ (l : List (ℚ × ℚ)) (init b : ℚ), init ≤ b →
    (∀ p ∈ l, p.1 ≤ b) → l.foldl (fun acc q => max acc q.1) init ≤ b := by
  intro l
  induction l with
  | nil => exact fun init b h0 _ => h0
  | cons q l ih =>
    intro init b h0 h
    simp only [List.foldl_cons]
    exact ih (max init q.1) b (max_le h0 (h q (List.mem_cons_self q l)))
      (fun p hp => h p (List.mem_cons_of_mem q hp))

theorem le_foldl_min : ∀ (l : List (ℚ × ℚ)) (init a : ℚ), a ≤ init →
    (∀ p ∈ l, a ≤ p.1) → a ≤ l.foldl (fun acc q => min acc q.1) init := by
  intro l
  induction l with
  | nil => exact fun init a h0 _ => h0
  | cons q l ih =>
    intro init a h0 h
    simp only [List.foldl_cons]
    exact ih (min init q.1) a (le_min h0 (h q (List.mem_cons_self q l)))
      (fun p hp => h p (List.mem_cons_of_mem q hp))

/-- A ring whose longitudes all lie inside `[a, b]` spans at most
`b - a`. -/
theorem lngSpan_le (ring : List (ℚ × ℚ)) (a b : ℚ) (hab : a ≤ b)
    (h : ∀ p ∈ ring, a ≤ p.1 ∧ p.1 ≤ b) : lngSpan ring ≤ b - a := by
  cases ring with
  | nil =>
    simp only [lngSpan, maxLng, minLng]
    linarith
  | cons p ps =>
    have hmax : maxLng (p :: ps) ≤ b :=
      foldl_max_le ps p.1 b (h p (List.mem_cons_self p ps)).2
        (fun q hq => (h q (List.mem_cons_of_mem p hq)).2)
    have hmin : a ≤ minLng (p :: ps) :=
      le_foldl_min ps p.1 a (h p (List.mem_cons_self p ps)).1
        (fun q hq => (h q (List.mem_cons_of_mem p hq)).1)
    unfold lngSpan
    linarith

theorem mem_closeRing {p : ℚ × ℚ} {l : List (ℚ × ℚ)} (h : p ∈ closeRing l) : p ∈ l := by
  cases l with
  | nil => exact absurd h (List.not_mem_nil p)
  | cons c cs =>
    rcases List.mem_append.mp h with h | h
    · exact h
    · rw [List.mem_singleton] at h
      subst h
      exact List.mem_cons_self p cs

theorem closeRing_closed (l : List (ℚ × ℚ)) (h : l ≠ []) :
    (closeRing l).getLast? = l.head? := by
  cases l with
  | nil => exact absurd rfl h
  | cons c cs =>
    show ((c :: cs) ++ [c]).getLast? = some c
    rw [List.getLast?_concat]

/-- Under the wrap shifts, if every boundary longitude is at least 90° from
the prime meridian and within range, the left copy's longitudes lie in
`[90, 270]`. -/
theorem leftCoords_bounds (boundary : List (ℚ × ℚ))
    (h90 : ∀ p ∈ boundary, p.2 ≤ -90 ∨ 90 ≤ p.2)
    (hrange : ∀ p ∈ boundary, -180 ≤ p.2 ∧ p.2 ≤ 180) :
    ∀ q ∈ leftCoords boundary, 90 ≤ q.1 ∧ q.1 ≤ 270 := by
  intro q hq
  obtain ⟨p, hp, rfl⟩ := List.mem_map.mp hq
  obtain ⟨hlo, hhi⟩ := hrange p hp
  dsimp only
  rcases h90 p hp with h9 | h9
  · rw [if_pos (lt_of_le_of_lt h9 (by norm_num))]
    constructor <;> linarith
  · rw [if_neg (not_lt.mpr (le_trans (by norm_num) h9))]
    constructor <;> linarith

/-- Symmetrically, the right copy's longitudes lie in `[-270, -90]`. -/
theorem rightCoords_bounds (boundary : List (ℚ × ℚ))
    (h90 : ∀ p ∈ boundary, p.2 ≤ -90 ∨ 90 ≤ p.2)
    (hrange : ∀ p ∈ boundary, -180 ≤ p.2 ∧ p.2 ≤ 180) :
    ∀ q ∈ rightCoords boundary, -270 ≤ q.1 ∧ q.1 ≤ -90 := by
  intro q hq
  obtain ⟨p, hp, rfl⟩ := List.mem_map.mp hq
  obtain ⟨hlo, hhi⟩ := hrange p hp
  dsimp only
  rcases h90 p hp with h9 | h9
  · rw [if_neg (not_lt.mpr (le_trans h9 (by norm_num)))]
    constructor <;> linarith
  · rw [if_pos (lt_of_lt_of_le (by norm_num) h9)]
    constructor <;> linarith

/-- C9 (amended): if no pair of cyclically consecutive boundary longitudes
differs by more than 180°, the output is a single polygon in (lng, lat)
order closed by repeating the first vertex; if a wrap is detected the
output is a multi-part geometry of exactly two polygons — the left copy
with negative longitudes shifted by +360 and the right copy with positive
longitudes shifted by -360, each independently closed — and, provided
every boundary longitude is at least 90° from the prime meridian (true of
any wrap-crossing cell spanning less than 180° of longitude, but false
for polar cells), neither part spans more than 180° of longitude. -/
theorem antimeridian_feature_spec (boundary : List (ℚ × ℚ)) (color : String)
    (hne : boundary ≠ [])
    (hrange : ∀ p ∈ boundary, -180 ≤ p.2 ∧ p.2 ≤ 180) :
    (crossesAntimeridian (boundary.map Prod.snd) = false →
      getAntimeridianSafeFeature boundary color =
        ⟨color, Geometry.polygon [closeRing (boundary.map (fun b => (b.2, b.1)))]⟩ ∧
      (closeRing (boundary.map (fun b => (b.2, b.1)))).getLast? =
        (boundary.map (fun b => (b.2, b.1))).head?)
  ∧ (crossesAntimeridian (boundary.map Prod.snd) = true →
      getAntimeridianSafeFeature boundary color =
        ⟨color, Geometry.multiPolygon [[closeRing (leftCoords boundary)],
                                       [closeRing (rightCoords boundary)]]⟩ ∧
      (closeRing (leftCoords boundary)).getLast? = (leftCoords boundary).head? ∧
      (closeRing (rightCoords boundary)).getLast? = (rightCoords boundary).head? ∧
      ((∀ p ∈ boundary, p.2 ≤ -90 ∨ 90 ≤ p.2) →
        lngSpan (closeRing (leftCoords boundary)) ≤ 180 ∧
        lngSpan (closeRing (rightCoords boundary)) ≤ 180)) := by
  constructor
  · intro hcross
    constructor
    · simp [getAntimeridianSafeFeature, hcross]
    · refine closeRing_closed _ ?_
      intro hmap
      exact hne (List.map_eq_nil_iff.mp hmap)
  · intro hcross
    refine ⟨?_, ?_, ?_, ?_⟩
    · simp [getAntimeridianSafeFeature, hcross]
    · refine closeRing_closed _ ?_
      intro hmap
      exact hne (List.map_eq_nil_iff.mp hmap)
    · refine closeRing_closed _ ?_
      intro hmap
      exact hne (List.map_eq_nil_iff.mp hmap)
    · intro h90
      constructor
      · have h := lngSpan_le (closeRing (leftCoords boundary)) 90 270 (by norm_num)
          (fun q hq => leftCoords_bounds boundary h90 hrange q (mem_closeRing hq))
        have h180 : (270 : ℚ) - 90 = 180 := by norm_num
        rw [h180] at h
        exact h
      · have h := lngSpan_le (closeRing (rightCoords boundary)) (-270) (-90) (by norm_num)
          (fun q hq => rightCoords_bounds boundary h90 hrange q (mem_closeRing hq))
        have h180 : (-90 : ℚ) - (-270) = 180 := by norm_num
        rw [h180] at h
        exact h

end Hilal

namespace Hilal

/-! ## Remaining fixtures, witnesses and counterexamples -/

/-- A typical cell boundary hugging the antimeridian: two vertices at
longitudes +179 and -179. -/
def wrapBoundary : List (ℚ × ℚ) := [(0, 179), (1, -179)]

/-- The boundary of a polar cell: its longitudes run all the way around
the pole (as `h3.cellToBoundary` returns for the resolution-0 cells
containing a pole), so consecutive longitudes jump by more than 180° even
though the cell does not hug the antimeridian. -/
def polarBoundary : List (ℚ × ℚ) :=
  [(85, -170), (85, -100), (85, -30), (85, 40), (85, 110)]

/-- C9 witness: the antimeridian-hugging boundary wraps, splits into the
two shifted closed parts, and each part spans at most 180° of
longitude. -/
theorem antimeridian_feature_spec_witness :
    getAntimeridianSafeFeature wrapBoundary "#3b82f6" =
      ⟨"#3b82f6", Geometry.multiPolygon [[closeRing (leftCoords wrapBoundary)],
                                         [closeRing (rightCoords wrapBoundary)]]⟩
  ∧ lngSpan (closeRing (leftCoords wrapBoundary)) ≤ 180
  ∧ lngSpan (closeRing (rightCoords wrapBoundary)) ≤ 180 := by
  have h := antimeridian_feature_spec wrapBoundary "#3b82f6"
    (by simp [wrapBoundary]) (by decide)
  have hcross : crossesAntimeridian (wrapBoundary.map Prod.snd) = true := by
    norm_num [crossesAntimeridian, wrapBoundary, List.range_succ, List.any_cons,
      List.any_nil, List.getD_cons_zero, List.getD_cons_succ]
  obtain ⟨heq, -, -, hspan⟩ := h.2 hcross
  obtain ⟨hl, hr⟩ := hspan (by decide)
  exact ⟨heq, hl, hr⟩

/-- C9 counterexample: the polar boundary triggers the wrap split, yet its
left part spans 290° of longitude — more than the 180° the claim allows
for every part of a wrapped output. -/
theorem antimeridian_span_cex :
    crossesAntimeridian (polarBoundary.map Prod.snd) = true
  ∧ getAntimeridianSafeFeature polarBoundary "#22c55e" =
      ⟨"#22c55e", Geometry.multiPolygon [[closeRing (leftCoords polarBoundary)],
                                         [closeRing (rightCoords polarBoundary)]]⟩
  ∧ lngSpan (closeRing (leftCoords polarBoundary)) = 290
  ∧ ¬ lngSpan (closeRing (leftCoords polarBoundary)) ≤ 180 := by
  have hcross : crossesAntimeridian (polarBoundary.map Prod.snd) = true := by
    norm_num [crossesAntimeridian, polarBoundary, List.range_succ, List.any_cons,
      List.any_nil, List.getD_cons_zero, List.getD_cons_succ]
  have hspan : lngSpan (closeRing (leftCoords polarBoundary)) = 290 := by
    norm_num [polarBoundary, leftCoords, closeRing, lngSpan, maxLng, minLng,
      List.foldl_cons, List.foldl_nil, max_def, min_def]
  refine ⟨hcross, ?_, hspan, ?_⟩
  · simp [getAntimeridianSafeFeature, hcross]
  · rw [hspan]
    norm_num

/-- A computed visibility result for one cell. -/
def resA : CellResult := ⟨"8428309ffffffff", some ("A"), "#22c55e"⟩

/-- A different payload for the same cell id as `resA`. -/
def resB : CellResult := ⟨"8428309ffffffff", some ("B"), "#84cc16"⟩

/-- A full ISO timestamp; its day truncation is `2024-03-10`. -/
def dateFix : String := "2024-03-10T12:00:00.000Z"

/-- C4 witness: inserting `resA` then `resB` under the same key into an
empty table keeps `resA`. -/
theorem cache_insert_first_writer_wins_witness :
    cacheResults (cacheResults [] [resA] dateFix 100) [resB] dateFix 100
      = cacheResults [] [resA] dateFix 100
  ∧ getCachedResults (cacheResults (cacheResults [] [resA] dateFix 100) [resB] dateFix 100)
      [resA.id] dateFix 100 = [⟨resA.id, resA.qcode, resA.color⟩] :=
  cache_insert_first_writer_wins [] resA resB dateFix 100 rfl rfl

/-- C7 witness: elevations 100.2 m and 100.4 m are distinct keys. -/
theorem cache_key_elevation_exact_witness :
    getCachedResults (cacheResults [] [resA] dateFix (501 / 5)) [resA.id] dateFix (502 / 5)
      = []
  ∧ getCachedResults (cacheResults [] [resA] dateFix (501 / 5)) [resA.id] dateFix (501 / 5)
      = [⟨resA.id, resA.qcode, resA.color⟩] :=
  cache_key_elevation_exact resA dateFix (501 / 5) (502 / 5) (by norm_num)

/-- C7 counterexample: 100.2 m and 100.4 m round to the same integer (100)
and differ by less than a meter, yet a result inserted under 100.2 m is a
miss when looked up under 100.4 m — the two do NOT address the same cache
entry, so the key is not integer-quantized. -/
theorem cache_elevation_quantization_cex :
    round ((501 : ℚ) / 5) = round ((502 : ℚ) / 5)
  ∧ |(501 : ℚ) / 5 - (502 : ℚ) / 5| < 1
  ∧ getCachedResults (cacheResults [] [resA] dateFix (501 / 5)) [resA.id] dateFix (502 / 5)
      = []
  ∧ getCachedResults (cacheResults [] [resA] dateFix (501 / 5)) [resA.id] dateFix (501 / 5)
      = [⟨resA.id, resA.qcode, resA.color⟩] := by
  have h0 : cacheResults [] [resA] dateFix (501 / 5)
      = [⟨resA.id, isoDay dateFix, 501 / 5, resA.qcode, resA.color⟩] :=
    cacheResults_single_absent [] resA dateFix (501 / 5) rfl
  refine ⟨?_, ?_, ?_, ?_⟩
  · norm_num [round_eq]
  · rw [abs_sub_lt_iff]
    constructor <;> norm_num
  · rw [h0, getCachedResults_single, if_neg]
    rintro ⟨-, -, h3⟩
    exact absurd h3 (by norm_num)
  · rw [h0, getCachedResults_single, if_pos ⟨rfl, rfl, rfl⟩]

end Hilal
